import Mathlib

/-
  Verification of the marketing-agent repository core:
  the agent control loop (src/agent.ts), the bounded conversation
  memory (src/memory.ts) and the tool catalog / dispatcher
  (src/tools.ts).  All definitions are shallow embeddings of the
  TypeScript source; external collaborators (the chat-completion
  provider, the GitHub fetcher, the Typefully MCP client) are
  modelled as scripted oracles supplied through a World value,
  exactly at the call/response boundary the source uses.
-/

namespace MarketingAgent

/-! ## JavaScript values and JSON.parse

The Decision Engine hands tool arguments to the loop as a raw string,
which src/agent.ts feeds to the platform builtin JSON.parse.  JsValue
models the parse result (a JavaScript value of JSON shape).  The num
constructor keeps the numeric literal verbatim: no handler of this
repository ever uses a numeric value, so float semantics are never
needed. -/

inductive JsValue where
  | null : JsValue
  | bool : Bool → JsValue
  | num : String → JsValue
  | str : String → JsValue
  | arr : List JsValue → JsValue
  | obj : List (String × JsValue) → JsValue
  deriving Repr

/-
  String conversion applied by JavaScript template literals
  (backtick interpolation): null prints as null, booleans as
  true/false, arrays join their elements with commas (null elements
  print as the empty string), plain objects print as
  [object Object].
-/
mutual

def jsToString : JsValue → String
  | .null => "null"
  | .bool b => cond b "true" "false"
  | .num s => s
  | .str s => s
  | .arr xs => jsArrJoin xs
  | .obj _ => "[object Object]"

def jsArrJoin : List JsValue → String
  | [] => ""
  | [.null] => ""
  | [v] => jsToString v
  | .null :: vs => "," ++ jsArrJoin vs
  | v :: vs => jsToString v ++ "," ++ jsArrJoin vs

end

/-- Interpolation of a possibly-undefined value (the result of a
member access): undefined prints as undefined. -/
def jsOptToString : Option JsValue → String
  | none => "undefined"
  | some v => jsToString v

/-- Member lookup on a JavaScript object: absent keys read as
undefined (modelled by none).  Objects produced by JSON.parse have
distinct keys, so first-match lookup is adequate. -/
def jsField : List (String × JsValue) → String → Option JsValue
  | [], _ => none
  | (k, v) :: rest, key => if k = key then some v else jsField rest key

/-! JSON.parse, the platform builtin used at src/agent.ts on the raw
tool-call arguments.  Modelled as a total function on the JSON
grammar over strings, literals, numbers, arrays and objects; the
only deliberate deviation is that backslash-u escapes are rejected
(no claim exercises them).  A parse failure (none) models the thrown
SyntaxError. -/

def jsonLBrace : Char := Char.ofNat 123

def jsonRBrace : Char := Char.ofNat 125

def jsonWs (c : Char) : Bool :=
  c = ' ' || c = '\t' || c = '\n' || c = '\r'

def skipWs : List Char → List Char
  | [] => []
  | c :: cs => if jsonWs c then skipWs cs else c :: cs

def parseJsonStringBody : List Char → Option (List Char × List Char)
  | [] => none
  | '"' :: rest => some ([], rest)
  | '\\' :: c :: rest =>
    let esc : Option Char :=
      if c = '"' then some '"'
      else if c = '\\' then some '\\'
      else if c = '/' then some '/'
      else if c = 'n' then some '\n'
      else if c = 't' then some '\t'
      else if c = 'r' then some '\r'
      else if c = 'b' then some (Char.ofNat 8)
      else if c = 'f' then some (Char.ofNat 12)
      else none
    match esc with
    | none => none
    | some e =>
      match parseJsonStringBody rest with
      | none => none
      | some (cs, r) => some (e :: cs, r)
  | c :: rest =>
    match parseJsonStringBody rest with
    | none => none
    | some (cs, r) => some (c :: cs, r)

def takeDigits (cs : List Char) : List Char × List Char :=
  cs.span Char.isDigit

/-- JSON number grammar: optional minus, an integer part that is 0 or
starts with a nonzero digit, optional fraction, optional exponent.
The lexeme is returned verbatim. -/
def parseJsonNumber (input : List Char) : Option (String × List Char) :=
  let (neg, afterSign) :=
    match input with
    | '-' :: rest => (['-'], rest)
    | _ => (([] : List Char), input)
  match afterSign with
  | [] => none
  | d :: _ =>
    if !d.isDigit then none
    else
      let (intPart, afterInt) :=
        if d = '0' then ([d], afterSign.tail)
        else takeDigits afterSign
      let (fracPart, afterFrac) :=
        match afterInt with
        | '.' :: rest =>
          let (ds, r) := takeDigits rest
          if ds.isEmpty then ([], '.' :: rest) else ('.' :: ds, r)
        | _ => (([] : List Char), afterInt)
      if (match afterInt with | '.' :: rest => (takeDigits rest).1.isEmpty | _ => false) then
        none
      else
        match afterFrac with
        | 'e' :: rest => parseJsonExponent (neg ++ intPart ++ fracPart) 'e' rest
        | 'E' :: rest => parseJsonExponent (neg ++ intPart ++ fracPart) 'E' rest
        | _ => some ((neg ++ intPart ++ fracPart).asString, afterFrac)
where
  parseJsonExponent (prefixChars : List Char) (e : Char) (rest : List Char) :
      Option (String × List Char) :=
    let (sign, afterExpSign) :=
      match rest with
      | '+' :: r => (['+'], r)
      | '-' :: r => (['-'], r)
      | _ => (([] : List Char), rest)
    let (ds, r) := takeDigits afterExpSign
    if ds.isEmpty then none
    else some ((prefixChars ++ [e] ++ sign ++ ds).asString, r)

mutual

def parseJsonValue : Nat → List Char → Option (JsValue × List Char)
  | 0, _ => none
  | Nat.succ fuel, input =>
    match skipWs input with
    | 'n' :: 'u' :: 'l' :: 'l' :: rest => some (.null, rest)
    | 't' :: 'r' :: 'u' :: 'e' :: rest => some (.bool true, rest)
    | 'f' :: 'a' :: 'l' :: 's' :: 'e' :: rest => some (.bool false, rest)
    | '"' :: rest =>
      match parseJsonStringBody rest with
      | none => none
      | some (cs, r) => some (.str cs.asString, r)
    | '[' :: rest =>
      (match skipWs rest with
       | ']' :: r => some (.arr [], r)
       | more =>
         match parseJsonArrayTail fuel more with
         | none => none
         | some (vs, r) => some (.arr vs, r))
    | c :: rest =>
      if c = jsonLBrace then
        match skipWs rest with
        | [] => none
        | c2 :: r2 =>
          if c2 = jsonRBrace then some (.obj [], r2)
          else
            match parseJsonObjectTail fuel (c2 :: r2) with
            | none => none
            | some (fields, r) => some (.obj fields, r)
      else if c = '-' || c.isDigit then
        match parseJsonNumber (c :: rest) with
        | none => none
        | some (s, r) => some (.num s, r)
      else none
    | [] => none

def parseJsonArrayTail : Nat → List Char → Option (List JsValue × List Char)
  | 0, _ => none
  | Nat.succ fuel, input =>
    match parseJsonValue fuel input with
    | none => none
    | some (v, rest) =>
      match skipWs rest with
      | ',' :: more =>
        (match parseJsonArrayTail fuel more with
         | none => none
         | some (vs, r) => some (v :: vs, r))
      | ']' :: more => some ([v], more)
      | _ => none

def parseJsonObjectTail : Nat → List Char → Option (List (String × JsValue) × List Char)
  | 0, _ => none
  | Nat.succ fuel, input =>
    match skipWs input with
    | '"' :: rest =>
      match parseJsonStringBody rest with
      | none => none
      | some (key, rest2) =>
        match skipWs rest2 with
        | ':' :: rest3 =>
          match parseJsonValue fuel rest3 with
          | none => none
          | some (v, rest4) =>
            match skipWs rest4 with
            | ',' :: more =>
              (match parseJsonObjectTail fuel more with
               | none => none
               | some (fields, r) => some ((key.asString, v) :: fields, r))
            | c :: more =>
              if c = jsonRBrace then some ([(key.asString, v)], more) else none
            | [] => none
        | _ => none
    | _ => none

end

/-- The builtin JSON.parse: some on well-formed input (requiring only
trailing whitespace after the value), none models a thrown
SyntaxError. -/
def JSONParse (s : String) : Option JsValue :=
  match parseJsonValue (2 * s.length + 2) s.data with
  | some (v, rest) => if (skipWs rest).isEmpty then some v else none
  | none => none

/-! ## Conversation entries (src/memory.ts)

A conversation entry is one ChatCompletionMessageParam as the Memory
class stores it: role and content, plus the optional OpenAI fields the
agent passes through the extra parameter of Memory.add (tool_calls on
assistant entries, tool_call_id and name on tool-result entries). -/

structure ToolCallFunction where
  name : String
  arguments : String
  deriving Repr, DecidableEq

/-- One tool-invocation request as emitted by the Decision Engine
inside message.tool_calls: a correlation id, a type tag (the API uses
the string function) and the named function with raw string-encoded
arguments. -/
structure ToolCall where
  id : String
  type : String
  function : ToolCallFunction
  deriving Repr, DecidableEq

/-- The extra argument of Memory.add.  The source spreads an untyped
object; the only keys any caller supplies are these three, so the
spread amounts to setting them (absent keys stay absent). -/
structure Extra where
  tool_calls : Option (List ToolCall) := none
  tool_call_id : Option String := none
  name : Option String := none
  deriving Repr, DecidableEq

structure Entry where
  role : String
  content : String
  tool_calls : Option (List ToolCall) := none
  tool_call_id : Option String := none
  name : Option String := none
  deriving Repr, DecidableEq

/-- The object literal built by Memory.add: role and content from the
positional arguments, remaining fields spread from extra. -/
def mkEntry (role content : String) (extra : Extra) : Entry :=
  { role := role, content := content, tool_calls := extra.tool_calls,
    tool_call_id := extra.tool_call_id, name := extra.name }

/-! ## The Memory class (src/memory.ts)

The class holds a private field messages pointing at a JavaScript
array.  Aliasing matters for claims about getAll, so the state is
modelled as a heap of arrays plus the index (reference) held by the
messages field: push mutates the referenced array in place, while the
eviction branch allocates a fresh array and repoints messages at it,
leaving previously handed-out references behind. -/

structure Memory where
  heap : List (List Entry)
  ref : Nat
  deriving Repr, DecidableEq

/-- Constructor: messages starts as a fresh one-element array holding
the system entry. -/
def Memory.init (systemPrompt : String) : Memory :=
  { heap := [[{ role := "system", content := systemPrompt }]], ref := 0 }

/-- Reading an array reference in a given store state. -/
def Memory.readRef (m : Memory) (r : Nat) : List Entry :=
  (m.heap[r]?).getD []

/-- The current value of the private messages field. -/
def Memory.messages (m : Memory) : List Entry :=
  m.readRef m.ref

/-- Memory.add: push the new entry, then if the length exceeds 11
replace messages with a fresh array of messages[0] followed by
slice(-10), the last ten entries. -/
def Memory.add (m : Memory) (role content : String) (extra : Extra) : Memory :=
  let pushed := m.messages ++ [mkEntry role content extra]
  let heap1 := m.heap.set m.ref pushed
  if pushed.length > 11 then
    { heap := heap1 ++ [pushed.take 1 ++ pushed.drop (pushed.length - 10)],
      ref := heap1.length }
  else
    { heap := heap1, ref := m.ref }

/-- Memory.getAll returns the messages field itself, i.e. the current
array reference (not a copy). -/
def Memory.getAll (m : Memory) : Nat := m.ref

/-- A store reached by a sequence of add calls on a store created with
the given system prompt: the universe of states the claims quantify
over. -/
def Memory.runAdds (sp : String) (ops : List (String × String × Extra)) : Memory :=
  ops.foldl (fun m op => m.add op.1 op.2.1 op.2.2) (Memory.init sp)

/-- The configuration entry that the constructor writes at index 0. -/
def systemEntry (sp : String) : Entry := { role := "system", content := sp }

/-- The last n elements of a list, written independently of the
implementation of the eviction branch (spec reading of slice(-10)). -/
def lastN (n : Nat) (xs : List α) : List α :=
  (xs.reverse.take n).reverse

lemma lastN_eq_drop (n : Nat) (xs : List α) :
    lastN n xs = xs.drop (xs.length - n) := by
  unfold lastN
  rw [List.take_reverse, List.reverse_reverse]

/-! ## Memory invariants -/

/-- Well-formedness of a memory state: the messages reference is live,
the window never exceeds 11 entries, and the configuration entry sits
at index 0. -/
def MemInv (sp : String) (m : Memory) : Prop :=
  m.ref < m.heap.length ∧ m.messages.length ≤ 11 ∧
    m.messages.head? = some (systemEntry sp)

lemma memInv_init (sp : String) : MemInv sp (Memory.init sp) := by
  refine ⟨by simp [Memory.init], ?_, ?_⟩ <;>
    simp [Memory.init, Memory.messages, Memory.readRef, systemEntry]

lemma memInv_add (sp : String) (m : Memory) (role content : String) (extra : Extra)
    (h : MemInv sp m) : MemInv sp (m.add role content extra) := by
  obtain ⟨h1, h2, h3⟩ := h
  cases hm : m.messages with
  | nil => rw [hm] at h3; simp at h3
  | cons a t =>
    rw [hm] at h3
    simp only [List.head?_cons, Option.some.injEq] at h3
    unfold Memory.add
    rw [hm]
    by_cases hc : (a :: t ++ [mkEntry role content extra]).length > 11
    · rw [if_pos hc]
      refine ⟨by simp, ?_, ?_⟩
      · simp only [Memory.messages, Memory.readRef, List.getElem?_concat_length,
          Option.getD_some]
        simp only [List.length_append, List.length_take, List.length_drop,
          List.length_cons] at hc ⊢
        omega
      · simp only [Memory.messages, Memory.readRef, List.getElem?_concat_length,
          Option.getD_some, List.cons_append, List.take_succ_cons, List.take_zero]
        simp [h3]
    · rw [if_neg hc]
      refine ⟨by simpa using h1, ?_, ?_⟩
      · simp only [Memory.messages, Memory.readRef,
          List.getElem?_set_eq_of_lt _ h1, Option.getD_some]
        simp only [List.length_append, List.length_cons] at hc ⊢
        omega
      · simp only [Memory.messages, Memory.readRef,
          List.getElem?_set_eq_of_lt _ h1, Option.getD_some, List.cons_append]
        simp [h3]

lemma memInv_runAdds (sp : String) (ops : List (String × String × Extra)) :
    MemInv sp (Memory.runAdds sp ops) := by
  unfold Memory.runAdds
  have h : ∀ (l : List (String × String × Extra)) (m : Memory), MemInv sp m →
      MemInv sp (l.foldl (fun m op => m.add op.1 op.2.1 op.2.2) m) := by
    intro l
    induction l with
    | nil => intro m hm; exact hm
    | cons op rest ih =>
      intro m hm
      exact ih _ (memInv_add sp m op.1 op.2.1 op.2.2 hm)
  exact h ops _ (memInv_init sp)

/-! ## Claims about the Bounded Conversation Store -/

/-- C1: for every sequence of append operations on a store created by
initialize(configurationText) — here Memory.runAdds, folding Memory.add
over a store built by Memory.init — after each append the store length
is at most the cap C = 11, and the entry at index 0 always equals the
original configuration entry (role system, content equal to the
configuration text). -/
theorem bounded_store_invariant (sp : String) (ops : List (String × String × Extra)) :
    (Memory.runAdds sp ops).messages.length ≤ 11 ∧
    (Memory.runAdds sp ops).messages[0]? = some (systemEntry sp) := by
  refine ⟨(memInv_runAdds sp ops).2.1, ?_⟩
  have h := (memInv_runAdds sp ops).2.2
  cases hm : (Memory.runAdds sp ops).messages with
  | nil => rw [hm] at h; simp at h
  | cons a t => rw [hm] at h; simpa using h

/-- C2: when an append would push the store beyond the cap, the store
retains exactly the entry at index 0 plus the most recent ten entries
of the pushed sequence (the just-appended entry counted as most
recent), in their original relative order (a sublist of the pushed
sequence), with the resulting length exactly 11. -/
theorem eviction_correctness (m : Memory) (role content : String) (extra : Extra)
    (h : 11 < m.messages.length + 1) :
    (m.add role content extra).messages
      = m.messages.take 1 ++ lastN 10 (m.messages ++ [mkEntry role content extra]) ∧
    ((m.add role content extra).messages).Sublist
      (m.messages ++ [mkEntry role content extra]) ∧
    (m.add role content extra).messages.length = 11 := by
  have hlen : (m.messages ++ [mkEntry role content extra]).length
      = m.messages.length + 1 := by simp
  have hc : (m.messages ++ [mkEntry role content extra]).length > 11 := by omega
  have hmsg : (m.add role content extra).messages
      = (m.messages ++ [mkEntry role content extra]).take 1
        ++ (m.messages ++ [mkEntry role content extra]).drop
            ((m.messages ++ [mkEntry role content extra]).length - 10) := by
    unfold Memory.add
    rw [if_pos hc]
    simp [Memory.messages, Memory.readRef]
  refine ⟨?_, ?_, ?_⟩
  · rw [hmsg, lastN_eq_drop]
    have h0 : 1 - m.messages.length = 0 := by omega
    rw [List.take_append_eq_append_take, h0]
    simp
  · rw [hmsg]
    have hd : (m.messages ++ [mkEntry role content extra]).drop
        ((m.messages ++ [mkEntry role content extra]).length - 10)
        = ((m.messages ++ [mkEntry role content extra]).drop 1).drop
            ((m.messages ++ [mkEntry role content extra]).length - 11) := by
      rw [List.drop_drop]
      congr 1
      omega
    rw [hd]
    have hs := (List.drop_sublist ((m.messages ++ [mkEntry role content extra]).length - 11)
      ((m.messages ++ [mkEntry role content extra]).drop 1)).append_left
      ((m.messages ++ [mkEntry role content extra]).take 1)
    rwa [List.take_append_drop] at hs
  · rw [hmsg]
    simp only [List.length_append, List.length_take, List.length_drop]
    omega

/-- C2 witness: a store holding the configuration entry plus ten
appended entries (length 11) evicts on the next append, keeping the
configuration entry plus the last ten pushed entries. -/
theorem eviction_correctness_witness :
    11 < (Memory.runAdds "cfg" (List.replicate 10 ("user", "x", ({} : Extra)))).messages.length + 1 ∧
    ((Memory.runAdds "cfg" (List.replicate 10 ("user", "x", ({} : Extra)))).add "user" "y"
        ({} : Extra)).messages
      = (Memory.runAdds "cfg" (List.replicate 10 ("user", "x", ({} : Extra)))).messages.take 1
        ++ lastN 10 ((Memory.runAdds "cfg" (List.replicate 10 ("user", "x", ({} : Extra)))).messages
            ++ [mkEntry "user" "y" ({} : Extra)]) :=
  ⟨by decide,
   (eviction_correctness (Memory.runAdds "cfg" (List.replicate 10 ("user", "x", ({} : Extra))))
     "user" "y" ({} : Extra) (by decide)).1⟩

/-- C9 counterexample: getAll does not return the entries by value.
Take the snapshot of a freshly initialized store, then append one
entry: reading the snapshot reference afterwards yields a different
sequence than it did before the append, so a previously returned
snapshot does not stay unchanged. -/
theorem snapshot_by_reference_counterexample :
    ((Memory.init "cfg").add "user" "hi" ({} : Extra)).readRef ((Memory.init "cfg").getAll)
      ≠ (Memory.init "cfg").readRef ((Memory.init "cfg").getAll) := by
  decide

/-- C9 amended: getAll returns the live messages array by reference,
not by value.  A later append mutates the array a previous snapshot
points at: read through the old reference, the snapshot now ends with
the just-appended entry (the pre-eviction contents; an eviction then
repoints the store at a fresh array without restoring the old one). -/
theorem snapshot_by_reference (sp : String) (ops : List (String × String × Extra))
    (role content : String) (extra : Extra) :
    ((Memory.runAdds sp ops).add role content extra).readRef ((Memory.runAdds sp ops).getAll)
      = (Memory.runAdds sp ops).messages ++ [mkEntry role content extra] := by
  have h1 := (memInv_runAdds sp ops).1
  set m := Memory.runAdds sp ops with hm
  unfold Memory.add Memory.getAll
  by_cases hc : (m.messages ++ [mkEntry role content extra]).length > 11
  · rw [if_pos hc]
    simp only [Memory.readRef]
    rw [List.getElem?_append_left (by simpa using h1)]
    rw [List.getElem?_set_eq_of_lt _ h1]
    simp
  · rw [if_neg hc]
    simp only [Memory.readRef]
    rw [List.getElem?_set_eq_of_lt _ h1]
    simp

/-! ## The tool catalog and dispatcher (src/tools.ts)

The catalog is the static tools array handed verbatim to the Decision
Engine; executeTool is the dispatcher.  Handlers are embedded exactly:
in particular analyze_codebase interpolates args.description, a field
its declared schema does not even mention. -/

structure ParamSpec where
  type : String
  description : Option String := none
  itemsType : Option String := none
  deriving Repr, DecidableEq

structure ToolFunctionDef where
  name : String
  description : String
  properties : List (String × ParamSpec)
  required : List String
  deriving Repr, DecidableEq

def tools : List ToolFunctionDef := [
  { name := "analyze_codebase",
    description := "Analyzes repository structure and purpose to understand what the project does",
    properties := [
      ("readme_excerpt",
        { type := "string", description := some "First 500 chars of README to analyze" }),
      ("primary_language",
        { type := "string", description := some "Main programming language used" })],
    required := ["readme_excerpt", "primary_language"] },
  { name := "generate_changelog",
    description := "Turn commits into a changelog announcement",
    properties := [
      ("commits", { type := "array", itemsType := some "string" }),
      ("repo_name", { type := "string" })],
    required := ["commits", "repo_name"] },
  { name := "create_use_case",
    description := "Write a practical example of how to use this project to solve a problem",
    properties := [
      ("description", { type := "string" }),
      ("language", { type := "string" })],
    required := ["description", "language"] },
  { name := "create_typefully_draft",
    description := "Save content as Typefully draft",
    properties := [("content", { type := "string" })],
    required := ["content"] }]

/-- The names present in the catalog. -/
def toolNames : List String := tools.map (fun t => t.name)

/-- Errors thrown inside executeTool: the explicit Unknown tool throw,
JavaScript TypeErrors raised by member access or method calls on
unsuitable values, and failures of the Typefully path (missing env
configuration, MCP client or call failure — rethrown by its catch
block). -/
inductive ToolError where
  | unknownTool (name : String)
  | typeError (msg : String)
  | executionError (msg : String)
  deriving Repr, DecidableEq

/-- JavaScript member access as the handlers perform it on the parsed
args value: reading any key of null throws a TypeError; on objects it
reads the field (absent keys yield undefined, modelled none); every
other JSON value yields undefined for these keys. -/
def jsMember (v : JsValue) (key : String) : Except ToolError (Option JsValue) :=
  match v with
  | .null => .error (.typeError ("Cannot read properties of null (reading " ++ key ++ ")"))
  | .obj fields => .ok (jsField fields key)
  | _ => .ok none

/-! ## External collaborators

The run touches three collaborators: the GitHub fetcher (src/github.ts,
one awaited call), the chat-completion provider, and the Typefully MCP
client.  A World value scripts their outcomes at exactly the
call/response boundary the source observes. -/

structure RepoContext where
  readme : String
  recentCommits : List String
  language : String
  deriving Repr, DecidableEq

/-- The message of the first choice of one chat-completion response
(the source reads only choices[0].message; a provider response always
carries at least one choice).  content is nullable; an absent
tool_calls array is modelled by the empty list. -/
structure LLMResponse where
  content : Option String
  tool_calls : List ToolCall
  deriving Repr, DecidableEq

structure World where
  fetchResult : Except String RepoContext
  engineResponses : List LLMResponse
  typefullyClient : Except String Unit
  typefullySocialSetId : Option String
  mcpCallResult : Except String Unit
  deriving Repr

/-- The executeTool dispatcher of src/tools.ts: exact name match on
the four handlers, final Unknown tool throw. -/
def executeTool (w : World) (name : String) (args : JsValue) : Except ToolError String :=
  if name = "analyze_codebase" then
    match jsMember args "description" with
    | .error e => .error e
    | .ok d => .ok ("## Codebase summary: " ++ jsOptToString d)
  else if name = "generate_changelog" then
    match jsMember args "commits" with
    | .error e => .error e
    | .ok (some (.arr cs)) =>
      .ok ("## What's New\n\n"
        ++ String.intercalate "\n" (cs.map (fun c => "• " ++ jsToString c)))
    | .ok _ => .error (.typeError "args.commits.map is not a function")
  else if name = "create_use_case" then
    match jsMember args "description", jsMember args "language" with
    | .error e, _ => .error e
    | _, .error e => .error e
    | .ok d, .ok l =>
      .ok ("## Use Case\n\n" ++ jsOptToString d ++ "\n\nBuilt with " ++ jsOptToString l ++ ".")
  else if name = "create_typefully_draft" then
    match w.typefullyClient with
    | .error e => .error (.executionError e)
    | .ok _ =>
      match w.typefullySocialSetId with
      | none =>
        .error (.executionError "TYPEFULLY_SOCIAL_SET_ID environment variable is not set")
      | some _ =>
        match jsMember args "content" with
        | .error e => .error e
        | .ok _ =>
          match w.mcpCallResult with
          | .error e => .error (.executionError e)
          | .ok _ => .ok "✓ Draft saved to Typefully"
  else .error (.unknownTool name)

/-! ## The agent control loop (src/agent.ts) -/

inductive StepName where
  | thought
  | action
  | observation
  | done
  deriving Repr, DecidableEq

structure AgentState where
  repoOwner : Option String
  repoName : Option String
  repoContext : Option RepoContext
  contentType : Option String
  draft : Option String
  step : StepName
  deriving Repr, DecidableEq

/-- Errors that abort a run: the rejected fetch promise, the explicit
No tool was called throw, the SyntaxError of JSON.parse on the raw
arguments, a throw from executeTool, plus two modelling artifacts that
no reachable run produces (scripted engine exhausted, loop fuel
exhausted). -/
inductive RunError where
  | contextFetchFailed (msg : String)
  | noToolCalled
  | argumentsNotJson (payload : String)
  | toolFailed (e : ToolError)
  | engineScriptExhausted
  | loopFuelExhausted
  deriving Repr, DecidableEq

/-- Mutable per-run context threaded through the loop: the Memory
instance, the not-yet-consumed scripted engine responses, the trace of
engine calls made so far (recording the mode: true when tools and
tool_choice required were passed) and of tool executions, and the
world. -/
structure RunState where
  mem : Memory
  pending : List LLMResponse
  engineCalls : List Bool
  toolExecs : List (String × JsValue)
  world : World

def RunState.addMsg (rs : RunState) (role content : String) (extra : Extra) : RunState :=
  { rs with mem := rs.mem.add role content extra }

/-- One client.chat.completions.create call: consumes the next
scripted Decision Engine response (the collaborator is a scripted
oracle, so the conversation snapshot it receives does not influence
the scripted reply). -/
def llmCall (_msgs : List Entry) (toolRequired : Bool) (rs : RunState) :
    Except (RunError × RunState) (LLMResponse × RunState) :=
  match rs.pending with
  | [] => .error (.engineScriptExhausted,
      { rs with engineCalls := rs.engineCalls ++ [toolRequired] })
  | r :: rest => .ok (r,
      { rs with pending := rest, engineCalls := rs.engineCalls ++ [toolRequired] })

/-- One executeTool invocation, recorded in the trace. -/
def RunState.execTool (rs : RunState) (name : String) (args : JsValue) :
    Except ToolError String × RunState :=
  (executeTool rs.world name args,
   { rs with toolExecs := rs.toolExecs ++ [(name, args)] })

/-- The system prompt the run hands to the Memory constructor. -/
def systemPrompt : String :=
  "You are a marketing agent for GitHub repositories. Your job is to analyze repos and create engaging, concise marketing content for developers. Always use the provided tools and keep content under 280 characters."

/-- Template interpolation of a value that is null when absent. -/
def optNullToString : Option String → String
  | none => "null"
  | some s => s

/-- Template interpolation of a value that is undefined when absent. -/
def optUndefinedToString : Option String → String
  | none => "undefined"
  | some s => s

/-- The user entry appended at the start of the action case. -/
def actionPrompt (s : AgentState) : String :=
  "Create " ++ optNullToString s.contentType ++ " content for "
    ++ optUndefinedToString s.repoOwner ++ "/" ++ optUndefinedToString s.repoName
    ++ ".\n\n      Recent commits: "
    ++ (match s.repoContext with
        | none => "undefined"
        | some ctx => String.intercalate ", " ctx.recentCommits)
    ++ "\n      README excerpt: "
    ++ (match s.repoContext with
        | none => "undefined"
        | some ctx => ctx.readme.take 200)
    ++ "\n      Primary language: "
    ++ (match s.repoContext with
        | none => "undefined"
        | some ctx => ctx.language)
    ++ "\n\n      Use the appropriate tool to generate this content."

/-- The fixed formatting instruction appended before the second engine
call. -/
def finalPrompt : String :=
  "Based on the tool result, create engaging tweet-length content (280 characters max). Make it compelling for developers."

/-- The draft template of the observation case (dead code in this
version of the loop: no transition sets step to observation). -/
def observationDraft (s : AgentState) : String :=
  "[" ++ (match s.contentType with | none => "undefined" | some c => c.toUpper)
    ++ "]\n\n      Repository: "
    ++ optUndefinedToString s.repoOwner ++ "/" ++ optUndefinedToString s.repoName
    ++ "\n      Based on recent commits: "
    ++ (match s.repoContext with
        | none => "undefined"
        | some ctx =>
          match ctx.recentCommits[0]? with
          | none => "undefined"
          | some c => c)
    ++ "\n\n      (Full generation coming Day 3 with tools)"

/-- The executeStep switch of src/agent.ts.  A thrown error carries
the RunState at throw time (JavaScript exceptions do not roll back
memory mutations or traces). -/
def executeStep (s : AgentState) (rs : RunState) :
    Except (RunError × RunState) (AgentState × RunState) :=
  match s.step with
  | .thought =>
    match rs.world.fetchResult with
    | .error e => .error (.contextFetchFailed e, rs)
    | .ok ctx => .ok ({ s with repoContext := some ctx, step := .action }, rs)
  | .action =>
    let rs1 := rs.addMsg "user" (actionPrompt s) ({} : Extra)
    match llmCall (rs1.mem.readRef rs1.mem.getAll) true rs1 with
    | .error e => .error e
    | .ok (response, rs2) =>
      match response.tool_calls[0]? with
      | none => .error (.noToolCalled, rs2)
      | some toolCall =>
        if toolCall.type ≠ "function" then .error (.noToolCalled, rs2)
        else
          let rs3 := rs2.addMsg "assistant" "" { tool_calls := some [toolCall] }
          match JSONParse toolCall.function.arguments with
          | none => .error (.argumentsNotJson toolCall.function.arguments, rs3)
          | some args =>
            match rs3.execTool toolCall.function.name args with
            | (.error e, rs4) => .error (.toolFailed e, rs4)
            | (.ok result, rs4) =>
              let rs5 := rs4.addMsg "tool" result
                { tool_call_id := some toolCall.id, name := some toolCall.function.name }
              let rs6 := rs5.addMsg "user" finalPrompt ({} : Extra)
              match llmCall (rs6.mem.readRef rs6.mem.getAll) false rs6 with
              | .error e => .error e
              | .ok (finalResponse, rs7) =>
                .ok ({ s with draft := finalResponse.content, step := .done }, rs7)
  | .observation =>
    .ok ({ s with draft := some (observationDraft s), step := .done }, rs)
  | .done => .ok (s, rs)

/-- The while loop of runAgent, with a fuel bound standing in for the
unbounded source loop: reachable runs move thought, then action, then
done, so three iterations always suffice and the loopFuelExhausted
branch is dead for the fuel runAgent supplies. -/
def runLoop : Nat → AgentState → RunState → Except (RunError × RunState) (AgentState × RunState)
  | 0, _, rs => .error (.loopFuelExhausted, rs)
  | Nat.succ n, s, rs =>
    if s.step = .done then .ok (s, rs)
    else
      match executeStep s rs with
      | .error e => .error e
      | .ok (s2, rs2) => runLoop n s2 rs2

/-- Observable outcome of one run: the settled promise of runAgent
(draft on success, the propagated error otherwise), the final memory,
and the collaborator traces. -/
structure RunOutcome where
  result : Except RunError (Option String)
  mem : Memory
  engineCalls : List Bool
  toolExecs : List (String × JsValue)

/-- runAgent of src/agent.ts: split the repository identifier, create
the Memory with the system prompt, run the loop from the thought step,
return the draft. -/
def runAgent (repoFullName : String) (w : World) : RunOutcome :=
  let parts := repoFullName.splitOn "/"
  let s0 : AgentState :=
    { repoOwner := parts[0]?, repoName := parts[1]?, repoContext := none,
      contentType := none, draft := none, step := .thought }
  let rs0 : RunState :=
    { mem := Memory.init systemPrompt, pending := w.engineResponses,
      engineCalls := [], toolExecs := [], world := w }
  match runLoop 4 s0 rs0 with
  | .ok (s, rs) =>
    { result := .ok s.draft, mem := rs.mem, engineCalls := rs.engineCalls,
      toolExecs := rs.toolExecs }
  | .error (e, rs) =>
    { result := .error e, mem := rs.mem, engineCalls := rs.engineCalls,
      toolExecs := rs.toolExecs }

/-- Number of entries with a given role in the current store window. -/
def countRole (m : Memory) (role : String) : Nat :=
  (m.messages.filter (fun e => e.role == role)).length

/-! ## Concrete fixtures for witnesses and counterexamples -/

def ctx0 : RepoContext :=
  { readme := "A CLI tool", recentCommits := ["Add X", "Fix Y"], language := "Go" }

def baseWorld : World :=
  { fetchResult := .ok ctx0, engineResponses := [],
    typefullyClient := .ok (), typefullySocialSetId := some "set1",
    mcpCallResult := .ok () }

def tcAnalyze : ToolCall :=
  { id := "call1", type := "function",
    function := { name := "analyze_codebase", arguments := "\x7b\x7d" } }

def tcUseCase : ToolCall :=
  { id := "call2", type := "function",
    function := { name := "create_use_case",
                  arguments := "\x7b\"description\": \"demo\", \"language\": \"ts\"\x7d" } }

def tcMalformed : ToolCall :=
  { id := "call3", type := "function",
    function := { name := "analyze_codebase", arguments := "not-json" } }

def tcUnknown : ToolCall :=
  { id := "call4", type := "function",
    function := { name := "nonexistent_tool", arguments := "\x7b\x7d" } }

/-! ## Claims about the control loop -/

/-- C7: when the External Context Fetcher fails, the run aborts with
that failure before any Decision Engine call is made, the store still
holds nothing beyond the configuration entry, and no draft is
returned. -/
theorem context_fetch_failure_aborts (rf : String) (w : World) (msg : String)
    (h : w.fetchResult = .error msg) :
    (runAgent rf w).result = .error (.contextFetchFailed msg) ∧
    (runAgent rf w).engineCalls = [] ∧
    (runAgent rf w).mem.messages = [systemEntry systemPrompt] := by
  simp [runAgent, runLoop, executeStep, h, Memory.init, Memory.messages,
    Memory.readRef, systemEntry]

/-- C7 witness: a concrete failing fetch. -/
theorem context_fetch_failure_aborts_witness :
    ({ baseWorld with fetchResult := .error "boom" } : World).fetchResult = .error "boom" ∧
    (runAgent "helicone/helicone" { baseWorld with fetchResult := .error "boom" }).result
      = .error (.contextFetchFailed "boom") ∧
    (runAgent "helicone/helicone" { baseWorld with fetchResult := .error "boom" }).engineCalls
      = [] ∧
    (runAgent "helicone/helicone" { baseWorld with fetchResult := .error "boom" }).mem.messages
      = [systemEntry systemPrompt] := by
  refine ⟨rfl, ?_⟩
  exact context_fetch_failure_aborts "helicone/helicone"
    { baseWorld with fetchResult := .error "boom" } "boom" rfl

/-- C8: when the Decision Engine response to the first (tool-required)
call carries a final answer and no tool-invocation request, the run
aborts with the No tool was called error after that single call
instead of returning a draft. -/
theorem no_tool_requested_aborts (rf : String) (w : World) (ctx : RepoContext)
    (r1 : LLMResponse) (rest : List LLMResponse) (answer : String)
    (hf : w.fetchResult = .ok ctx)
    (he : w.engineResponses = r1 :: rest)
    (_hc : r1.content = some answer)
    (ht : r1.tool_calls = []) :
    (runAgent rf w).result = .error .noToolCalled ∧
    (runAgent rf w).engineCalls = [true] := by
  simp [runAgent, runLoop, executeStep, RunState.addMsg, llmCall, hf, he, ht]

/-- C8 witness: a stub engine that answers the tool-required query
with text only. -/
theorem no_tool_requested_aborts_witness :
    ({ baseWorld with
        engineResponses := [{ content := some "answer", tool_calls := [] }] } : World).fetchResult
      = .ok ctx0 ∧
    (runAgent "helicone/helicone"
      { baseWorld with
        engineResponses := [{ content := some "answer", tool_calls := [] }] }).result
      = .error .noToolCalled ∧
    (runAgent "helicone/helicone"
      { baseWorld with
        engineResponses := [{ content := some "answer", tool_calls := [] }] }).engineCalls
      = [true] := by
  refine ⟨rfl, ?_⟩
  exact no_tool_requested_aborts "helicone/helicone"
    { baseWorld with engineResponses := [{ content := some "answer", tool_calls := [] }] }
    ctx0 { content := some "answer", tool_calls := [] } [] "answer" rfl rfl rfl rfl

/-- Stub engine for the N = 1 instance of the termination claim: the
first response is already a final answer carrying no tool requests. -/
def wFinalOnly : World :=
  { baseWorld with
    engineResponses := [{ content := some "final answer", tool_calls := [] }] }

/-- C3: evaluation at the failing input.  With a stub Decision Engine
whose first response is a final answer and no tool request (the N = 1
instance), the claim says the drafting phase stops after that one call
and runAgent returns the final text as the draft.  The code instead
requires a tool request on the first call: it makes the single call
and then aborts with the No tool was called error, returning no
draft. -/
theorem drafting_termination_divergence :
    (runAgent "helicone/helicone" wFinalOnly).result = .error .noToolCalled ∧
    (runAgent "helicone/helicone" wFinalOnly).engineCalls = [true] :=
  ⟨rfl, rfl⟩

/-- Stub engine requesting two tool invocations in one response, then
producing a final text. -/
def wTwoTools : World :=
  { baseWorld with
    engineResponses := [
      { content := none, tool_calls := [tcAnalyze, tcUseCase] },
      { content := some "the draft", tool_calls := [] }] }

/-- C4: evaluation at the failing input.  The Decision Engine requests
k = 2 tool invocations (analyze_codebase then create_use_case) in a
single response.  The claim says both execute in order and both result
entries reach the store before the next engine call; the code reads
only tool_calls[0], so exactly one tool executes, exactly one
tool-result entry is stored, and the second request is silently
dropped while the run still completes. -/
theorem multi_tool_request_divergence :
    (runAgent "helicone/helicone" wTwoTools).toolExecs.map Prod.fst = ["analyze_codebase"] ∧
    countRole (runAgent "helicone/helicone" wTwoTools).mem "tool" = 1 ∧
    (runAgent "helicone/helicone" wTwoTools).result = .ok (some "the draft") :=
  ⟨rfl, rfl, rfl⟩

/-- Stub engine whose single tool request carries a malformed argument
payload; a second scripted response is available in case the loop were
to continue. -/
def wMalformed : World :=
  { baseWorld with
    engineResponses := [
      { content := none, tool_calls := [tcMalformed] },
      { content := some "recovered", tool_calls := [] }] }

/-- C5 counterexample: a tool request whose raw argument payload fails
to parse.  The run is aborted by the JSON.parse throw: the error
reaches the caller, no tool-result entry is appended, and no second
Decision Engine call is made — contradicting the claimed local
recovery. -/
theorem argument_parse_recovery_counterexample :
    (runAgent "helicone/helicone" wMalformed).result
      = .error (.argumentsNotJson "not-json") ∧
    (runAgent "helicone/helicone" wMalformed).engineCalls = [true] ∧
    countRole (runAgent "helicone/helicone" wMalformed).mem "tool" = 0 :=
  ⟨rfl, rfl, rfl⟩

/-- C5 amended: for every tool-invocation request whose raw argument
payload fails to parse, the JSON.parse failure propagates uncaught:
the run aborts with that parse error after the single Decision Engine
call, and no tool-result entry is appended to the conversation. -/
theorem malformed_arguments_abort (rf : String) (w : World) (ctx : RepoContext)
    (r1 : LLMResponse) (rest : List LLMResponse) (tc : ToolCall)
    (hf : w.fetchResult = .ok ctx)
    (he : w.engineResponses = r1 :: rest)
    (htc : r1.tool_calls[0]? = some tc)
    (hty : tc.type = "function")
    (hp : JSONParse tc.function.arguments = none) :
    (runAgent rf w).result = .error (.argumentsNotJson tc.function.arguments) ∧
    (runAgent rf w).engineCalls = [true] ∧
    countRole (runAgent rf w).mem "tool" = 0 := by
  simp [runAgent, runLoop, executeStep, RunState.addMsg, llmCall, hf, he, htc, hty, hp,
    countRole, Memory.init, Memory.add, Memory.messages, Memory.readRef, mkEntry]

/-- C5 witness: the malformed payload not-json. -/
theorem malformed_arguments_abort_witness :
    wMalformed.fetchResult = .ok ctx0 ∧
    wMalformed.engineResponses
      = { content := none, tool_calls := [tcMalformed] }
        :: [{ content := some "recovered", tool_calls := [] }] ∧
    ({ content := none, tool_calls := [tcMalformed] } : LLMResponse).tool_calls[0]?
      = some tcMalformed ∧
    tcMalformed.type = "function" ∧
    JSONParse tcMalformed.function.arguments = none ∧
    (runAgent "octo/repo" wMalformed).result
      = .error (.argumentsNotJson tcMalformed.function.arguments) := by
  refine ⟨rfl, rfl, rfl, rfl, rfl, ?_⟩
  exact (malformed_arguments_abort "octo/repo" wMalformed ctx0
    { content := none, tool_calls := [tcMalformed] }
    [{ content := some "recovered", tool_calls := [] }]
    tcMalformed rfl rfl rfl rfl rfl).1

/-- C6: a name absent from the tool catalog is always rejected by the
dispatcher with the Unknown tool error (never a silent no-op), and
when the Decision Engine requests such a name the throw propagates
uncaught and aborts the run. -/
theorem unknown_tool_rejection (name : String) (h : name ∉ toolNames) :
    (∀ w args, executeTool w name args = .error (.unknownTool name)) ∧
    (∀ (rf : String) (w : World) (ctx : RepoContext) (r1 : LLMResponse)
       (rest : List LLMResponse) (tc : ToolCall) (args : JsValue),
      w.fetchResult = .ok ctx →
      w.engineResponses = r1 :: rest →
      r1.tool_calls[0]? = some tc →
      tc.type = "function" →
      tc.function.name = name →
      JSONParse tc.function.arguments = some args →
      (runAgent rf w).result = .error (.toolFailed (.unknownTool name))) := by
  have hn : ¬name = "analyze_codebase" ∧ ¬name = "generate_changelog" ∧
      ¬name = "create_use_case" ∧ ¬name = "create_typefully_draft" := by
    simp only [toolNames, tools, List.map_cons, List.map_nil, List.mem_cons,
      List.not_mem_nil, or_false] at h
    push_neg at h
    exact h
  have base : ∀ w args, executeTool w name args = .error (.unknownTool name) := by
    intro w args
    unfold executeTool
    rw [if_neg hn.1, if_neg hn.2.1, if_neg hn.2.2.1, if_neg hn.2.2.2]
  refine ⟨base, ?_⟩
  intro rf w ctx r1 rest tc args hf he htc hty hname hargs
  simp [runAgent, runLoop, executeStep, RunState.addMsg, RunState.execTool, llmCall,
    hf, he, htc, hty, hname, hargs, base]

/-- Stub engine requesting a tool name absent from the catalog. -/
def wUnknownTool : World :=
  { baseWorld with
    engineResponses := [
      { content := none, tool_calls := [tcUnknown] },
      { content := some "unreached", tool_calls := [] }] }

/-- C6 witness: the name nonexistent_tool. -/
theorem unknown_tool_rejection_witness :
    "nonexistent_tool" ∉ toolNames ∧
    executeTool baseWorld "nonexistent_tool" (.obj [])
      = .error (.unknownTool "nonexistent_tool") ∧
    (runAgent "helicone/helicone" wUnknownTool).result
      = .error (.toolFailed (.unknownTool "nonexistent_tool")) := by
  have h := unknown_tool_rejection "nonexistent_tool" (by decide)
  exact ⟨by decide, h.1 baseWorld (.obj []),
    h.2 "helicone/helicone" wUnknownTool ctx0
      { content := none, tool_calls := [tcUnknown] }
      [{ content := some "unreached", tool_calls := [] }]
      tcUnknown (.obj []) rfl rfl rfl rfl rfl rfl⟩

/-- C10: for every argument object that conforms to the declared
schema of analyze_codebase — the two required string fields
readme_excerpt and primary_language present, no description field —
executeTool succeeds and returns the string "## Codebase summary:
undefined", because the handler interpolates the undeclared
args.description. -/
theorem analyze_codebase_ignores_schema (w : World)
    (fields : List (String × JsValue)) (r l : String)
    (_hr : jsField fields "readme_excerpt" = some (.str r))
    (_hl : jsField fields "primary_language" = some (.str l))
    (hd : jsField fields "description" = none) :
    executeTool w "analyze_codebase" (.obj fields)
      = .ok "## Codebase summary: undefined" := by
  simp [executeTool, jsMember, hd, jsOptToString]

/-- C10 witness: a schema-conformant argument object. -/
theorem analyze_codebase_ignores_schema_witness :
    jsField [("readme_excerpt", JsValue.str "A CLI tool"), ("primary_language", JsValue.str "Go")]
        "readme_excerpt" = some (.str "A CLI tool") ∧
    jsField [("readme_excerpt", JsValue.str "A CLI tool"), ("primary_language", JsValue.str "Go")]
        "primary_language" = some (.str "Go") ∧
    jsField [("readme_excerpt", JsValue.str "A CLI tool"), ("primary_language", JsValue.str "Go")]
        "description" = none ∧
    executeTool baseWorld "analyze_codebase"
        (.obj [("readme_excerpt", JsValue.str "A CLI tool"), ("primary_language", JsValue.str "Go")])
      = .ok "## Codebase summary: undefined" :=
  ⟨rfl, rfl, rfl,
   analyze_codebase_ignores_schema baseWorld
     [("readme_excerpt", JsValue.str "A CLI tool"), ("primary_language", JsValue.str "Go")]
     "A CLI tool" "Go" rfl rfl rfl⟩

end MarketingAgent
